import Mathlib

/-!
Verification development for the consul-monitor polling-and-aggregation
pipeline.  The Python sources (consul_client.py, database.py, app.py,
background_poller.py) are shallowly embedded: pure computations become Lean
functions, SQLite tables become lists of row structures with explicit
timestamp parameters in place of CURRENT_TIMESTAMP, and network responses
become an `Except` value so that both the success path and the
request-exception path of each client call are visible.
-/

namespace ConsulMonitor

/-- Model of `requests.exceptions.RequestException`: the ways an HTTP round
trip to the registry can fail (timeout, connection refusal, or an error
status raised by `raise_for_status`). -/
inductive ReqError where
  | timeout : ReqError
  | connectionError : ReqError
  | httpStatus : Nat → ReqError
deriving DecidableEq

/-- The registry's `/v1/catalog/services` response is a JSON object mapping
each service name to its tag list; we model it as an association list. -/
abbrev Catalog := List (String × List String)

/-- Embedding of `consul_client.get_all_service_names`.  The argument is the
outcome of `requests.get(...)`: on success the catalog JSON, on failure the
raised `RequestException`.  The source filters out the service named
`consul` and returns the remaining names; the `except` branch logs and
returns the empty list. -/
def get_all_service_names (resp : Except ReqError Catalog) : List String :=
  match resp with
  | Except.ok services => (services.map Prod.fst).filter (fun name => name ≠ "consul")
  | Except.error _ => []

/-- One health check as assembled in `fetch_all_service_data`
(`{'check_name': ..., 'status': ...}`). -/
structure HealthCheck where
  check_name : String
  status : String
deriving DecidableEq

/-- One service object as assembled in `fetch_all_service_data`
(`{'id', 'name', 'address', 'port', 'tags', 'meta', 'health_checks'}`). -/
structure ServiceObj where
  id : String
  name : String
  address : String
  port : Nat
  tags : List String
  meta : List (String × String)
  health_checks : List HealthCheck
deriving DecidableEq

/-- `status_priority` lookup from `fetch_all_service_data`:
`{'critical': 3, 'warning': 2, 'passing': 1}` with `.get(_, 0)` default. -/
def status_priority (s : String) : Nat :=
  if s = "critical" then 3
  else if s = "warning" then 2
  else if s = "passing" then 1
  else 0

/-- The inner comparison step of the composite-health loop: replace the
current worst status exactly when the check's status has strictly higher
priority. -/
def worstStep (worst : String) (c : HealthCheck) : String :=
  if status_priority c.status > status_priority worst then c.status else worst

/-- Embedding of the composite-health computation of
`fetch_all_service_data` (the loop over `instance['services']` and each
service's `health_checks`, starting from `worst_status = 'passing'`). -/
def instanceComposite (services : List ServiceObj) : String :=
  services.foldl (fun worst svc => svc.health_checks.foldl worstStep worst) "passing"

/-- Whether some check of some service of the instance carries status `s`. -/
def hasCheckStatus (services : List ServiceObj) (s : String) : Bool :=
  services.any (fun svc => svc.health_checks.any (fun c => c.status = s))

/-- A row of the `services` table (database.py `create_tables`).  `tags` and
`meta` hold the JSON text produced by `json.dumps`; serialisation itself is
not modelled, the encoded text is carried opaquely.  Timestamps are rationals
standing for SQLite DATETIME values; `CURRENT_TIMESTAMP` becomes an explicit
`now` argument of each write. -/
structure ServiceRow where
  id : String
  name : String
  address : String
  port : Option Nat
  tags : String
  meta : String
  first_seen : ℚ
  last_seen : ℚ
deriving DecidableEq

/-- A row of the `health_checks` table (the AUTOINCREMENT id column is not
needed by any query modelled here and is omitted). -/
structure HealthCheckRow where
  service_id : String
  check_name : String
  status : String
  timestamp : ℚ
deriving DecidableEq

/-- The `service_data` dict handed to `upsert_service`: id, name, port,
plus the `json.dumps`-encoded tags and meta. -/
structure ServiceData where
  id : String
  name : String
  port : Option Nat
  tags : String
  meta : String
deriving DecidableEq

/-- Embedding of `database.upsert_service`: `INSERT ... ON CONFLICT(id) DO
UPDATE SET name, address, port, tags, meta, last_seen = CURRENT_TIMESTAMP`.
On conflict the existing row keeps its `first_seen`; a fresh insert gets
both `first_seen` and `last_seen` from the DATETIME defaults (`now`). -/
def upsert_service (now : ℚ) (table : List ServiceRow) (sd : ServiceData)
    (instance_address : String) : List ServiceRow :=
  if table.any (fun r => r.id = sd.id) then
    table.map (fun r =>
      if r.id = sd.id then
        { r with name := sd.name, address := instance_address, port := sd.port,
                 tags := sd.tags, meta := sd.meta, last_seen := now }
      else r)
  else
    table ++ [⟨sd.id, sd.name, instance_address, sd.port, sd.tags, sd.meta, now, now⟩]

/-- The `latest_health` CTE of `get_all_services_grouped`: for one
`service_id`, the `status` and `MAX(timestamp)` over its `health_checks`
rows (SQLite's bare `status` column comes from a row attaining the maximum
timestamp; on ties this fold keeps the earliest such row).  `none` when the
service has no health rows (the LEFT JOIN then supplies NULL). -/
def latest_health (checks : List HealthCheckRow) (sid : String) : Option (String × ℚ) :=
  (checks.filter (fun c => c.service_id = sid)).foldl
    (fun acc c =>
      match acc with
      | none => some (c.status, c.timestamp)
      | some (s, t) => if c.timestamp > t then some (c.status, c.timestamp) else some (s, t))
    none

/-- One element of the `instances` JSON array built by
`get_all_services_grouped` for a grouped service. -/
structure InstanceView where
  address : String
  port : Option Nat
  id : String
  tags : String
  meta : String
  current_status : Option String
  last_check : Option ℚ
deriving DecidableEq

/-- One entry of the list returned by `get_all_services_grouped`. -/
structure GroupedService where
  name : String
  instances : List InstanceView
  composite_status : String
deriving DecidableEq

/-- The Python composite-status chain of `get_all_services_grouped`:
critical if any instance's current status is critical, else warning if any
is warning, else passing if all are passing, else unknown. -/
def groupedComposite (insts : List InstanceView) : String :=
  if insts.any (fun i => i.current_status = some "critical") then "critical"
  else if insts.any (fun i => i.current_status = some "warning") then "warning"
  else if insts.all (fun i => i.current_status = some "passing") then "passing"
  else "unknown"

/-- Embedding of `database.get_all_services_grouped`: group the `services`
rows by name (SQL `GROUP BY s.name`; the `ORDER BY s.name` only fixes the
output order and is immaterial to the stated properties, so grouping keys
are taken in first-appearance order), attach each member's latest health
status via the `latest_health` CTE, and compute the composite status. -/
def get_all_services_grouped (svcs : List ServiceRow) (checks : List HealthCheckRow) :
    List GroupedService :=
  ((svcs.map (fun s => s.name)).dedup).map (fun nm =>
    let members := (svcs.filter (fun s => s.name = nm)).map (fun s =>
      let lh := latest_health checks s.id
      ⟨s.address, s.port, s.id, s.tags, s.meta, lh.map Prod.fst, lh.map Prod.snd⟩)
    ⟨nm, members, groupedComposite members⟩)

/-- Python's `round` to the nearest integer with ties to even, on the exact
rational value.  (`app.py` rounds binary doubles; every concrete value used
in the theorems below is dyadic or far from a tie, where the double and the
exact rational round identically.) -/
def round_half_even (x : ℚ) : ℤ :=
  if x - ⌊x⌋ < 1/2 then ⌊x⌋
  else if x - ⌊x⌋ > 1/2 then ⌊x⌋ + 1
  else if 2 ∣ ⌊x⌋ then ⌊x⌋
  else ⌊x⌋ + 1

/-- Python's `round(x, 1)`: one decimal digit. -/
def round1 (x : ℚ) : ℚ :=
  (round_half_even (x * 10) : ℚ) / 10

/-- One element of the `chart_data` list built by `aggregate_health_data`. -/
structure ChartPoint where
  timestamp : ℚ
  passing : ℚ
  warning : ℚ
  critical : ℚ
deriving DecidableEq

/-- A raw history row `(status, timestamp_str)` as consumed by
`aggregate_health_data`.  Timestamps are minutes as rationals; a row whose
timestamp string `datetime.fromisoformat` cannot parse is `none` (the code
silently drops it). -/
abbrev HistoryRow := String × Option ℚ

/-- The time slots of `aggregate_health_data`: `current = end - 24h; while
current < end: append; current += window`.  In minutes the slots are
`end - 1440 + k*g` for every `k` with `k*g < 1440`; for `g > 0` there are
exactly `⌈1440/g⌉ = (1440 + g - 1)/g` of them (this closed form is the
loop's output; `g = 0` would not terminate and granularity is validated to
`{5,15,30,60}` upstream). -/
def time_slots (end_time : ℚ) (g : ℕ) : List ℚ :=
  (List.range ((1440 + g - 1) / g)).map (fun k : ℕ => (end_time - 1440) + (k : ℚ) * (g : ℚ))

/-- The statuses a given window collects: each parseable row whose timestamp
lies in the half-open interval `[slot, slot + g)`.  The source assigns each
row to the first matching slot and breaks; consecutive slots are `g` apart
and windows are `g` wide, so at most one slot matches and the first is the
only one. -/
def window_statuses (rows : List HistoryRow) (slot : ℚ) (g : ℕ) : List String :=
  rows.filterMap (fun r =>
    match r.2 with
    | none => none
    | some t => if slot ≤ t ∧ t < slot + g then some r.1 else none)

/-- The per-window percentage record of `aggregate_health_data`: counts of
`passing`/`warning`/`critical` over the window's checks, each divided by the
window total and rounded to one decimal; an empty window yields 0/0/0. -/
def window_point (rows : List HistoryRow) (g : ℕ) (slot : ℚ) : ChartPoint :=
  let checks := window_statuses rows slot g
  if checks = [] then ⟨slot, 0, 0, 0⟩
  else
    let total : ℚ := checks.length
    ⟨slot,
      round1 ((checks.countP (fun s => s = "passing") : ℚ) * 100 / total),
      round1 ((checks.countP (fun s => s = "warning") : ℚ) * 100 / total),
      round1 ((checks.countP (fun s => s = "critical") : ℚ) * 100 / total)⟩

/-- Embedding of `app.aggregate_health_data`.  `end_time` stands for
`datetime.utcnow()` at the moment of the call.  An empty `raw_history`
returns `[]` before any window is built. -/
def aggregate_health_data (end_time : ℚ) (raw_history : List HistoryRow) (g : ℕ) :
    List ChartPoint :=
  if raw_history = [] then []
  else (time_slots end_time g).map (window_point raw_history g)

/-! ## Theorems -/

lemma status_priority_eq_zero (s : String) (hc : s ≠ "critical") (hw : s ≠ "warning")
    (hp : s ≠ "passing") : status_priority s = 0 := by
  simp [status_priority, hc, hw, hp]

/-- Characterisation of the inner check loop of the composite computation:
starting from a recognised accumulator, the fold yields `critical` as soon
as the accumulator or some check is critical, then `warning`, else it keeps
the accumulator.  Unrecognised check statuses never win (their priority 0
is below every recognised accumulator's). -/
lemma foldl_worstStep_char (l : List HealthCheck) :
    ∀ w, (w = "passing" ∨ w = "warning" ∨ w = "critical") →
      l.foldl worstStep w =
        if w = "critical" ∨ l.any (fun c => c.status = "critical") then "critical"
        else if w = "warning" ∨ l.any (fun c => c.status = "warning") then "warning"
        else w := by
  induction l with
  | nil =>
    intro w hw
    rcases hw with h | h | h <;> subst h <;> simp
  | cons c l ih =>
    intro w hw
    rw [List.foldl_cons]
    by_cases hc : c.status = "critical"
    · have hstep : worstStep w c = "critical" := by
        rcases hw with h | h | h <;> subst h <;> simp [worstStep, status_priority, hc]
      rw [hstep, ih "critical" (Or.inr (Or.inr rfl))]
      simp [List.any_cons, hc]
    · by_cases hwn : c.status = "warning"
      · rcases hw with h | h | h
        · subst h
          have hstep : worstStep "passing" c = "warning" := by
            simp [worstStep, status_priority, hwn, hc]
          rw [hstep, ih "warning" (Or.inr (Or.inl rfl))]
          simp [List.any_cons, hwn, hc]
        · subst h
          have hstep : worstStep "warning" c = "warning" := by
            simp [worstStep, status_priority, hwn, hc]
          rw [hstep, ih "warning" (Or.inr (Or.inl rfl))]
          simp [List.any_cons, hwn, hc]
        · subst h
          have hstep : worstStep "critical" c = "critical" := by
            simp [worstStep, status_priority, hwn, hc]
          rw [hstep, ih "critical" (Or.inr (Or.inr rfl))]
          simp [List.any_cons, hc]
      · have hstep : worstStep w c = w := by
          by_cases hp : c.status = "passing" <;>
            rcases hw with h | h | h <;> subst h <;>
              simp [worstStep, status_priority, hc, hwn, hp]
        rw [hstep, ih w hw]
        simp [List.any_cons, hc, hwn]

/-- Characterisation of the outer loop over an instance's services. -/
lemma instanceComposite_foldl (svcs : List ServiceObj) :
    ∀ w, (w = "passing" ∨ w = "warning" ∨ w = "critical") →
      svcs.foldl (fun worst svc => svc.health_checks.foldl worstStep worst) w =
        if w = "critical" ∨ hasCheckStatus svcs "critical" then "critical"
        else if w = "warning" ∨ hasCheckStatus svcs "warning" then "warning"
        else w := by
  induction svcs with
  | nil =>
    intro w hw
    rcases hw with h | h | h <;> subst h <;> simp [hasCheckStatus]
  | cons s svcs ih =>
    intro w hw
    rw [List.foldl_cons, foldl_worstStep_char s.health_checks w hw]
    by_cases hsc : s.health_checks.any (fun c => c.status = "critical") = true
    · rw [if_pos (Or.inr hsc), ih "critical" (Or.inr (Or.inr rfl))]
      simp [hasCheckStatus, List.any_cons] at hsc ⊢
      simp [hsc]
    · have hB : ¬ ∃ x ∈ s.health_checks, x.status = "critical" := by simpa using hsc
      by_cases hw3 : w = "critical"
      · rw [if_pos (Or.inl hw3), ih "critical" (Or.inr (Or.inr rfl))]
        simp [hw3]
      · rw [if_neg (by tauto)]
        by_cases hsw : s.health_checks.any (fun c => c.status = "warning") = true
        · have hW : ∃ x ∈ s.health_checks, x.status = "warning" := by simpa using hsw
          rw [if_pos (Or.inr hsw), ih "warning" (Or.inr (Or.inl rfl))]
          simp [hasCheckStatus, List.any_cons, hB, hW, hw3]
        · have hNW : ¬ ∃ x ∈ s.health_checks, x.status = "warning" := by simpa using hsw
          by_cases hw2 : w = "warning"
          · rw [if_pos (Or.inl hw2), ih "warning" (Or.inr (Or.inl rfl))]
            simp [hasCheckStatus, List.any_cons, hB, hNW, hw3, hw2]
          · rw [if_neg (by tauto), ih w hw]
            simp [hasCheckStatus, List.any_cons, hB, hNW, hw3, hw2]

/-- Claim C1 (counterexample): an instance whose only check carries an
unrecognised status string gets composite health `passing`, not `unknown`
as the claim states — the accumulator starts at `passing` and an
unrecognised status (priority 0) never replaces it. -/
theorem c1_unknown_counterexample :
    instanceComposite [⟨"s1", "web", "10.0.0.1", 80, [], [], [⟨"serfHealth", "bogus"⟩]⟩] =
      "passing" ∧ ("passing" : String) ≠ "unknown" :=
  ⟨rfl, by decide⟩

/-- Claim C1 (amended): the composite health of an instance assembled by
`fetch_all_service_data` is `critical` if any check of any of its services
is critical, else `warning` if any is warning, else `passing` — also when
the instance has no checks at all and when all its checks carry
unrecognised status strings (never `unknown`). -/
theorem c1_composite_worst_status (services : List ServiceObj) :
    instanceComposite services =
      if hasCheckStatus services "critical" then "critical"
      else if hasCheckStatus services "warning" then "warning"
      else "passing" := by
  have h := instanceComposite_foldl services "passing" (Or.inl rfl)
  rw [instanceComposite, h]
  simp

/-- Claim C7 (counterexample): when the registry request raises, the code
does not fail with an Unavailable error — it returns the ordinary value
`[]`, indistinguishable from a successful response whose catalog is empty.
-/
theorem c7_unreachable_counterexample :
    get_all_service_names (Except.error ReqError.timeout) =
      get_all_service_names (Except.ok ([] : Catalog)) := rfl

/-- Claim C7 (amended): `get_all_service_names` returns the catalog's
service names without `consul` on success, and returns the empty list —
rather than failing with an error — when the request raises a network/HTTP
error. -/
theorem c7_names_or_empty :
    (∀ err : ReqError, get_all_service_names (Except.error err) = []) ∧
    (∀ (cat : Catalog) (n : String),
      n ∈ get_all_service_names (Except.ok cat) ↔
        (n ∈ cat.map Prod.fst ∧ n ≠ "consul")) := by
  refine ⟨fun _ => rfl, fun cat n => ?_⟩
  simp [get_all_service_names, List.mem_filter]

/-- Claim C9: for every catalog response, `get_all_service_names` excludes
the service named `consul` and returns every other service name. -/
theorem c9_consul_excluded (cat : Catalog) :
    "consul" ∉ get_all_service_names (Except.ok cat) ∧
    ∀ n, n ∈ cat.map Prod.fst → n ≠ "consul" →
      n ∈ get_all_service_names (Except.ok cat) := by
  constructor
  · intro h
    simp [get_all_service_names, List.mem_filter] at h
  · intro n hn hne
    simp only [get_all_service_names, List.mem_filter]
    exact ⟨hn, by simpa using hne⟩

/-- Claim C9 witness: on the concrete catalog `{web, consul}`, `consul` is
excluded and `web` is returned. -/
theorem c9_consul_excluded_witness :
    "consul" ∉ get_all_service_names (Except.ok [("web", []), ("consul", [])]) ∧
    "web" ∈ get_all_service_names (Except.ok [("web", []), ("consul", [])]) :=
  ⟨(c9_consul_excluded [("web", []), ("consul", [])]).1,
   (c9_consul_excluded [("web", []), ("consul", [])]).2 "web" (by decide) (by decide)⟩

/-- The four branches of the Python composite-status chain, characterised by
the member statuses. -/
lemma groupedComposite_spec (insts : List InstanceView) :
    ((∃ i ∈ insts, i.current_status = some "critical") →
      groupedComposite insts = "critical") ∧
    (¬(∃ i ∈ insts, i.current_status = some "critical") →
      (∃ i ∈ insts, i.current_status = some "warning") →
      groupedComposite insts = "warning") ∧
    (¬(∃ i ∈ insts, i.current_status = some "critical") →
      ¬(∃ i ∈ insts, i.current_status = some "warning") →
      (∀ i ∈ insts, i.current_status = some "passing") →
      groupedComposite insts = "passing") ∧
    (¬(∃ i ∈ insts, i.current_status = some "critical") →
      ¬(∃ i ∈ insts, i.current_status = some "warning") →
      ¬(∀ i ∈ insts, i.current_status = some "passing") →
      groupedComposite insts = "unknown") := by
  refine ⟨fun h1 => ?_, fun h1 h2 => ?_, fun h1 h2 h3 => ?_, fun h1 h2 h3 => ?_⟩
  · rw [groupedComposite, if_pos (by simpa using h1)]
  · rw [groupedComposite, if_neg (by simpa using h1), if_pos (by simpa using h2)]
  · rw [groupedComposite, if_neg (by simpa using h1), if_neg (by simpa using h2),
      if_pos (by simpa using h3)]
  · rw [groupedComposite, if_neg (by simpa using h1), if_neg (by simpa using h2),
      if_neg (by simpa using h3)]

/-- Claim C2: every grouped service's name-level composite status is
computed from its member instances' most recent health-check statuses as:
critical if any is critical; else warning if any is warning; else passing
if every one is passing; else unknown. -/
theorem c2_grouped_composite (svcs : List ServiceRow) (checks : List HealthCheckRow)
    (gs : GroupedService) (hmem : gs ∈ get_all_services_grouped svcs checks) :
    ((∃ i ∈ gs.instances, i.current_status = some "critical") →
      gs.composite_status = "critical") ∧
    (¬(∃ i ∈ gs.instances, i.current_status = some "critical") →
      (∃ i ∈ gs.instances, i.current_status = some "warning") →
      gs.composite_status = "warning") ∧
    (¬(∃ i ∈ gs.instances, i.current_status = some "critical") →
      ¬(∃ i ∈ gs.instances, i.current_status = some "warning") →
      (∀ i ∈ gs.instances, i.current_status = some "passing") →
      gs.composite_status = "passing") ∧
    (¬(∃ i ∈ gs.instances, i.current_status = some "critical") →
      ¬(∃ i ∈ gs.instances, i.current_status = some "warning") →
      ¬(∀ i ∈ gs.instances, i.current_status = some "passing") →
      gs.composite_status = "unknown") := by
  rw [get_all_services_grouped, List.mem_map] at hmem
  obtain ⟨nm, _, rfl⟩ := hmem
  exact groupedComposite_spec _

/-- Claim C2 witness: one service row with a critical latest check makes its
group's composite status critical. -/
theorem c2_grouped_composite_witness :
    ((⟨"web", [⟨"10.0.0.1", some 80, "s1", "[]", "", some "critical", some 5⟩],
        "critical"⟩ : GroupedService) ∈
      get_all_services_grouped [⟨"s1", "web", "10.0.0.1", some 80, "[]", "", 0, 0⟩]
        [⟨"s1", "serfHealth", "critical", 5⟩]) ∧
    (⟨"web", [⟨"10.0.0.1", some 80, "s1", "[]", "", some "critical", some 5⟩],
        "critical"⟩ : GroupedService).composite_status = "critical" :=
  ⟨by decide,
   (c2_grouped_composite [⟨"s1", "web", "10.0.0.1", some 80, "[]", "", 0, 0⟩]
      [⟨"s1", "serfHealth", "critical", 5⟩] _ (by decide)).1
     ⟨⟨"10.0.0.1", some 80, "s1", "[]", "", some "critical", some 5⟩, by decide, rfl⟩⟩

/-- Claim C5: upserting a service id fresh to the table at time `t1` and
upserting the same id again at time `t2` (same data, or data whose address
changed — both are ordinary updates, not errors) leaves exactly one row for
that id, with `first_seen` preserved from the first call, `last_seen`
overwritten to `t2`, and name/address/port/tags/meta from the second call.
-/
theorem c5_upsert_service_idempotent (t1 t2 : ℚ) (table : List ServiceRow)
    (sd sd' : ServiceData) (addr addr' : String)
    (hfresh : ∀ r ∈ table, r.id ≠ sd.id) (hid : sd'.id = sd.id) :
    (upsert_service t2 (upsert_service t1 table sd addr) sd' addr').filter
        (fun r => r.id = sd.id) =
      [⟨sd.id, sd'.name, addr', sd'.port, sd'.tags, sd'.meta, t1, t2⟩] := by
  have h1 : ¬ (table.any (fun r => r.id = sd.id) = true) := by
    simp only [List.any_eq_true, decide_eq_true_eq]
    rintro ⟨r, hr, he⟩
    exact hfresh r hr he
  have hT1 : upsert_service t1 table sd addr =
      table ++ [⟨sd.id, sd.name, addr, sd.port, sd.tags, sd.meta, t1, t1⟩] := by
    rw [upsert_service, if_neg h1]
  rw [hT1]
  have h2 : ((table ++ [(⟨sd.id, sd.name, addr, sd.port, sd.tags, sd.meta, t1, t1⟩ :
      ServiceRow)]).any (fun r => r.id = sd'.id)) = true := by
    simp [List.any_append, hid]
  rw [upsert_service, if_pos h2, List.map_append, List.filter_append]
  have hA : table.map (fun r =>
      if r.id = sd'.id then
        { r with name := sd'.name, address := addr', port := sd'.port,
                 tags := sd'.tags, meta := sd'.meta, last_seen := t2 }
      else r) = table := by
    calc table.map (fun r =>
          if r.id = sd'.id then
            { r with name := sd'.name, address := addr', port := sd'.port,
                     tags := sd'.tags, meta := sd'.meta, last_seen := t2 }
          else r)
        = table.map id := by
          refine List.map_congr_left ?_
          intro r hr
          rw [hid, if_neg (hfresh r hr)]
          rfl
      _ = table := List.map_id table
  rw [hA]
  have hB : table.filter (fun r => r.id = sd.id) = [] := by
    rw [List.filter_eq_nil_iff]
    intro r hr
    simpa using hfresh r hr
  rw [hB, List.nil_append]
  simp [hid]

/-- Claim C5 witness: a concrete double upsert of service `s1`, with the
address changing between the calls. -/
theorem c5_upsert_service_idempotent_witness :
    (∀ r ∈ ([] : List ServiceRow), r.id ≠ "s1") ∧
    (upsert_service 1 (upsert_service 0 [] ⟨"s1", "web", some 80, "[]", ""⟩ "10.0.0.1")
        ⟨"s1", "web", some 80, "[]", ""⟩ "10.0.0.2").filter (fun r => r.id = "s1") =
      [⟨"s1", "web", "10.0.0.2", some 80, "[]", "", 0, 1⟩] :=
  ⟨by simp,
   c5_upsert_service_idempotent 0 1 [] ⟨"s1", "web", some 80, "[]", ""⟩
     ⟨"s1", "web", some 80, "[]", ""⟩ "10.0.0.1" "10.0.0.2" (by simp) rfl⟩

lemma window_point_timestamp (rows : List HistoryRow) (g : ℕ) (slot : ℚ) :
    (window_point rows g slot).timestamp = slot := by
  rw [window_point]
  by_cases h : window_statuses rows slot g = [] <;> simp [h]

lemma ceil_div_of_dvd (g : ℕ) (hg : 0 < g) (h : g ∣ 1440) :
    (1440 + g - 1) / g = 1440 / g := by
  obtain ⟨m, hm⟩ := h
  have h1 : 1440 + g - 1 = (g - 1) + g * m := by omega
  rw [h1, Nat.add_mul_div_left _ _ hg, Nat.div_eq_of_lt (by omega), hm,
    Nat.mul_div_cancel_left _ hg]
  omega

/-- Claim C4: for a 24-hour span and any window size `g` dividing 1440, a
non-empty history yields exactly `1440/g` windows whose start times are
`end - 1440 + i*g` in order (so each width-`g` window starts where the
previous ends, the first starts 24 h before `end_time` and the last ends at
`end_time`), and the half-open width-`g` windows at two distinct indices
never share a point. -/
theorem c4_window_coverage (e : ℚ) (g : ℕ) (rows : List HistoryRow)
    (hg : 0 < g) (hdvd : g ∣ 1440) (hrows : rows ≠ []) :
    (aggregate_health_data e rows g).length = 1440 / g ∧
    (aggregate_health_data e rows g).map (fun p => p.timestamp) =
      (List.range (1440 / g)).map (fun k : ℕ => e - 1440 + (k : ℚ) * (g : ℚ)) ∧
    (∀ (t : ℚ) (i j : ℕ), i < 1440 / g → j < 1440 / g →
      e - 1440 + i * g ≤ t → t < e - 1440 + i * g + g →
      e - 1440 + j * g ≤ t → t < e - 1440 + j * g + g → i = j) := by
  have hagg : aggregate_health_data e rows g = (time_slots e g).map (window_point rows g) := by
    rw [aggregate_health_data, if_neg hrows]
  refine ⟨?_, ?_, ?_⟩
  · rw [hagg, time_slots]
    simp only [List.length_map, List.length_range]
    exact ceil_div_of_dvd g hg hdvd
  · rw [hagg, List.map_map, time_slots, ceil_div_of_dvd g hg hdvd, List.map_map]
    refine List.map_congr_left ?_
    intro k _
    simp [window_point_timestamp]
  · intro t i j hi hj h1 h2 h3 h4
    have hgq : (0 : ℚ) < g := by exact_mod_cast hg
    rcases lt_trichotomy i j with hij | hij | hij
    · exfalso
      have hc : ((i : ℚ) + 1) * g ≤ (j : ℚ) * g := by
        have : (i : ℚ) + 1 ≤ j := by exact_mod_cast hij
        exact mul_le_mul_of_nonneg_right this (le_of_lt hgq)
      nlinarith
    · exact hij
    · exfalso
      have hc : ((j : ℚ) + 1) * g ≤ (i : ℚ) * g := by
        have : (j : ℚ) + 1 ≤ i := by exact_mod_cast hij
        exact mul_le_mul_of_nonneg_right this (le_of_lt hgq)
      nlinarith

/-- Claim C4 witness: with a 60-minute granularity and a one-row history
the aggregator produces 1440/60 windows. -/
theorem c4_window_coverage_witness :
    (aggregate_health_data 1440 [("passing", some 0)] 60).length = 1440 / 60 :=
  (c4_window_coverage 1440 60 [("passing", some 0)] (by decide) (by decide)
    (by decide)).1

lemma mem_aggregate (e : ℚ) (g : ℕ) (rows : List HistoryRow) (pt : ChartPoint)
    (hmem : pt ∈ aggregate_health_data e rows g) :
    ∃ slot ∈ time_slots e g, pt = window_point rows g slot := by
  rw [aggregate_health_data] at hmem
  by_cases h : rows = []
  · rw [if_pos h] at hmem
    exact absurd hmem (List.not_mem_nil pt)
  · rw [if_neg h, List.mem_map] at hmem
    obtain ⟨slot, hslot, hpt⟩ := hmem
    exact ⟨slot, hslot, hpt.symm⟩

/-- Claim C3 (counterexample): with history `[passing, passing, critical]`
falling in the first window, the aggregator reports passing = 66.7 and
critical = 33.3 for that window — not passing = 33.3 / critical = 66.7 as
the claim states (two of the three checks are passing). -/
theorem c3_percentages_counterexample :
    (aggregate_health_data 1440
        [("passing", some 0), ("passing", some 1), ("critical", some 2)] 15).head? =
      some ⟨0, 667/10, 0, 333/10⟩ ∧ ((667 : ℚ)/10) ≠ 333/10 := by
  constructor
  · rw [aggregate_health_data, if_neg (by simp), time_slots, List.map_map,
      show (1440 + 15 - 1) / 15 = 96 from by norm_num, List.head?_map,
      show (List.range 96).head? = some 0 from by decide, Option.map_some']
    have hs : ((1440 : ℚ) - 1440) + ((0 : ℕ) : ℚ) * ((15 : ℕ) : ℚ) = 0 := by push_cast; ring
    rw [Function.comp_apply, hs, window_point,
      show window_statuses [("passing", some 0), ("passing", some 1), ("critical", some 2)]
          0 15 = ["passing", "passing", "critical"] from by
        norm_num [window_statuses, List.filterMap_cons]]
    simp [List.countP_cons, List.countP_nil]
    norm_num [round1, round_half_even, Int.fract]
  · norm_num

/-- Claim C3 (amended): a window whose collected statuses are exactly
`[passing, passing, critical]` gets passing = 66.7, warning = 0,
critical = 33.3 (one decimal). -/
theorem c3_window_percentages (e : ℚ) (g : ℕ) (rows : List HistoryRow) (pt : ChartPoint)
    (hmem : pt ∈ aggregate_health_data e rows g)
    (hwin : window_statuses rows pt.timestamp g = ["passing", "passing", "critical"]) :
    pt.passing = 667/10 ∧ pt.warning = 0 ∧ pt.critical = 333/10 := by
  obtain ⟨slot, hslot, rfl⟩ := mem_aggregate e g rows pt hmem
  rw [window_point_timestamp] at hwin
  rw [window_point, hwin]
  simp [List.countP_cons, List.countP_nil]
  norm_num [round1, round_half_even, Int.fract]

/-- Claim C3 witness: the three-row history evaluated concretely. -/
theorem c3_window_percentages_witness :
    ((⟨0, 667/10, 0, 333/10⟩ : ChartPoint) ∈
      aggregate_health_data 1440
        [("passing", some 0), ("passing", some 1), ("critical", some 2)] 15) ∧
    (⟨0, 667/10, 0, 333/10⟩ : ChartPoint).passing = 667/10 := by
  have hhead : (aggregate_health_data 1440
      [("passing", some 0), ("passing", some 1), ("critical", some 2)] 15).head? =
      some ⟨0, 667/10, 0, 333/10⟩ := by
    rw [aggregate_health_data, if_neg (by simp), time_slots, List.map_map,
      show (1440 + 15 - 1) / 15 = 96 from by norm_num, List.head?_map,
      show (List.range 96).head? = some 0 from by decide, Option.map_some']
    have hs : ((1440 : ℚ) - 1440) + ((0 : ℕ) : ℚ) * ((15 : ℕ) : ℚ) = 0 := by push_cast; ring
    rw [Function.comp_apply, hs, window_point,
      show window_statuses [("passing", some 0), ("passing", some 1), ("critical", some 2)]
          0 15 = ["passing", "passing", "critical"] from by
        norm_num [window_statuses, List.filterMap_cons]]
    simp [List.countP_cons, List.countP_nil]
    norm_num [round1, round_half_even, Int.fract]
  have hmem := List.mem_of_mem_head? hhead
  refine ⟨hmem, (c3_window_percentages 1440 15
    [("passing", some 0), ("passing", some 1), ("critical", some 2)]
    ⟨0, 667/10, 0, 333/10⟩ hmem ?_).1⟩
  norm_num [window_statuses, List.filterMap_cons]

/-- Rounding to the nearest integer (ties either way) moves a value by at
most one half. -/
lemma round_half_even_bounds (x : ℚ) :
    x - 1/2 ≤ (round_half_even x : ℚ) ∧ (round_half_even x : ℚ) ≤ x + 1/2 := by
  have h1 : (⌊x⌋ : ℚ) ≤ x := Int.floor_le x
  have h2 : x < ⌊x⌋ + 1 := Int.lt_floor_add_one x
  rw [round_half_even]
  split_ifs <;> constructor <;> push_cast <;> linarith

/-- Counts of the three recognised statuses never exceed the window size,
and saturate it exactly when every status is recognised. -/
lemma countP_three (l : List String) :
    (l.countP (fun s => s = "passing") + l.countP (fun s => s = "warning") +
      l.countP (fun s => s = "critical") ≤ l.length) ∧
    ((∀ s ∈ l, s = "passing" ∨ s = "warning" ∨ s = "critical") →
      l.countP (fun s => s = "passing") + l.countP (fun s => s = "warning") +
        l.countP (fun s => s = "critical") = l.length) := by
  induction l with
  | nil => simp
  | cons a l ih =>
    obtain ⟨ih1, ih2⟩ := ih
    constructor
    · simp only [List.countP_cons, List.length_cons]
      by_cases h1 : a = "passing" <;> by_cases h2 : a = "warning" <;>
        by_cases h3 : a = "critical" <;> simp [h1, h2, h3] <;> omega
    · intro hall
      have hrest := ih2 (fun s hs => hall s (List.mem_cons_of_mem a hs))
      have ha := hall a (List.mem_cons_self a l)
      simp only [List.countP_cons, List.length_cons]
      rcases ha with h | h | h <;> subst h <;> simp <;> omega

/-- Claim C6 (counterexample): a window holding 7 passing, 7 warning and 2
critical checks reports 43.8 + 43.8 + 12.5 = 100.1 — the rounded
percentages exceed 100 even though every status is recognised (and a window
of one check each of the three statuses would give 99.9, not exactly 100).
-/
theorem c6_sum_counterexample :
    ((aggregate_health_data 1440
        [("passing", some 0), ("passing", some 0), ("passing", some 0),
         ("passing", some 0), ("passing", some 0), ("passing", some 0),
         ("passing", some 0), ("warning", some 0), ("warning", some 0),
         ("warning", some 0), ("warning", some 0), ("warning", some 0),
         ("warning", some 0), ("warning", some 0), ("critical", some 0),
         ("critical", some 0)] 60).head? =
      some ⟨0, 219/5, 219/5, 25/2⟩) ∧ ¬((219 : ℚ)/5 + 219/5 + 25/2 ≤ 100) := by
  constructor
  · rw [aggregate_health_data, if_neg (by simp), time_slots, List.map_map,
      show (1440 + 60 - 1) / 60 = 24 from by norm_num, List.head?_map,
      show (List.range 24).head? = some 0 from by decide, Option.map_some']
    have hs : ((1440 : ℚ) - 1440) + ((0 : ℕ) : ℚ) * ((60 : ℕ) : ℚ) = 0 := by push_cast; ring
    rw [Function.comp_apply, hs, window_point,
      show window_statuses
          [("passing", some 0), ("passing", some 0), ("passing", some 0),
           ("passing", some 0), ("passing", some 0), ("passing", some 0),
           ("passing", some 0), ("warning", some 0), ("warning", some 0),
           ("warning", some 0), ("warning", some 0), ("warning", some 0),
           ("warning", some 0), ("warning", some 0), ("critical", some 0),
           ("critical", some 0)] 0 60 =
        ["passing", "passing", "passing", "passing", "passing", "passing",
         "passing", "warning", "warning", "warning", "warning", "warning",
         "warning", "warning", "critical", "critical"] from by
        norm_num [window_statuses, List.filterMap_cons]]
    simp [List.countP_cons, List.countP_nil]
    norm_num [round1, round_half_even, Int.fract]
  · norm_num

/-- Claim C6 (amended): for every window the aggregator produces, the three
rounded percentages sum to at most 100.1; when the window is non-empty and
every status in it is recognised (passing/warning/critical), the sum also
lies at or above 99.9 — it need not equal 100 exactly, and it can reach
100.1. -/
theorem c6_window_sum_bounds (e : ℚ) (g : ℕ) (rows : List HistoryRow) (pt : ChartPoint)
    (hmem : pt ∈ aggregate_health_data e rows g) :
    pt.passing + pt.warning + pt.critical ≤ 1001/10 ∧
    ((∀ s ∈ window_statuses rows pt.timestamp g,
        s = "passing" ∨ s = "warning" ∨ s = "critical") →
      window_statuses rows pt.timestamp g ≠ [] →
      999/10 ≤ pt.passing + pt.warning + pt.critical) := by
  obtain ⟨slot, hslot, rfl⟩ := mem_aggregate e g rows pt hmem
  rw [window_point_timestamp]
  rw [window_point]
  by_cases hC : window_statuses rows slot g = []
  · rw [if_pos hC]
    constructor
    · norm_num
    · intro _ hne
      exact absurd hC hne
  · rw [if_neg hC]
    set C := window_statuses rows slot g with hCdef
    set cp := C.countP (fun s => s = "passing") with hcp
    set cw := C.countP (fun s => s = "warning") with hcw
    set cc := C.countP (fun s => s = "critical") with hcc
    have hT : 0 < (C.length : ℚ) := by
      have : 0 < C.length := List.length_pos.mpr hC
      exact_mod_cast this
    set xp : ℚ := (cp : ℚ) * 100 / (C.length : ℚ) with hxp
    set xw : ℚ := (cw : ℚ) * 100 / (C.length : ℚ) with hxw
    set xc : ℚ := (cc : ℚ) * 100 / (C.length : ℚ) with hxc
    have hxp0 : 0 ≤ xp := by positivity
    have hxw0 : 0 ≤ xw := by positivity
    have hxc0 : 0 ≤ xc := by positivity
    obtain ⟨hp1, hp2⟩ := round_half_even_bounds (xp * 10)
    obtain ⟨hw1, hw2⟩ := round_half_even_bounds (xw * 10)
    obtain ⟨hc1, hc2⟩ := round_half_even_bounds (xc * 10)
    have hsum_le : xp + xw + xc ≤ 100 := by
      have hcount : (cp + cw + cc : ℚ) ≤ (C.length : ℚ) := by
        exact_mod_cast (countP_three C).1
      rw [hxp, hxw, hxc, div_add_div_same, div_add_div_same, div_le_iff₀ hT]
      nlinarith
    have hzsum_le : round_half_even (xp * 10) + round_half_even (xw * 10) +
        round_half_even (xc * 10) ≤ 1001 := by
      have hq : ((round_half_even (xp * 10) + round_half_even (xw * 10) +
          round_half_even (xc * 10) : ℤ) : ℚ) < 1002 := by
        push_cast
        linarith
      have h3 : (round_half_even (xp * 10) + round_half_even (xw * 10) +
          round_half_even (xc * 10) : ℤ) < 1002 := by exact_mod_cast hq
      omega
    constructor
    · show round1 xp + round1 xw + round1 xc ≤ 1001/10
      rw [round1, round1, round1, div_add_div_same, div_add_div_same,
        div_le_div_iff_of_pos_right (by norm_num)]
      exact_mod_cast hzsum_le
    · intro hall hne
      have hcount_eq : (cp + cw + cc : ℚ) = (C.length : ℚ) := by
        exact_mod_cast (countP_three C).2 hall
      have hsum_eq : xp + xw + xc = 100 := by
        rw [hxp, hxw, hxc, div_add_div_same, div_add_div_same]
        rw [show (cp : ℚ) * 100 + (cw : ℚ) * 100 + (cc : ℚ) * 100 =
          ((cp : ℚ) + cw + cc) * 100 from by ring]
        rw [show ((cp : ℚ) + cw + cc) = (C.length : ℚ) from by linarith]
        field_simp
      have hzsum_ge : (999 : ℤ) ≤ round_half_even (xp * 10) + round_half_even (xw * 10) +
          round_half_even (xc * 10) := by
        have hq : (998 : ℚ) < ((round_half_even (xp * 10) + round_half_even (xw * 10) +
            round_half_even (xc * 10) : ℤ) : ℚ) := by
          push_cast
          linarith
        have h3 : (998 : ℤ) < (round_half_even (xp * 10) + round_half_even (xw * 10) +
            round_half_even (xc * 10) : ℤ) := by exact_mod_cast hq
        omega
      show 999/10 ≤ round1 xp + round1 xw + round1 xc
      rw [round1, round1, round1, div_add_div_same, div_add_div_same,
        div_le_div_iff_of_pos_right (by norm_num)]
      exact_mod_cast hzsum_ge

/-- Claim C6 witness: a one-row history, whose single window sums to
exactly 100 ≤ 100.1. -/
theorem c6_window_sum_bounds_witness :
    ((⟨0, 100, 0, 0⟩ : ChartPoint) ∈
      aggregate_health_data 1440 [("passing", some 0)] 60) ∧
    (⟨0, 100, 0, 0⟩ : ChartPoint).passing + (⟨0, 100, 0, 0⟩ : ChartPoint).warning +
      (⟨0, 100, 0, 0⟩ : ChartPoint).critical ≤ 1001/10 := by
  have hhead : (aggregate_health_data 1440 [("passing", some 0)] 60).head? =
      some ⟨0, 100, 0, 0⟩ := by
    rw [aggregate_health_data, if_neg (by simp), time_slots, List.map_map,
      show (1440 + 60 - 1) / 60 = 24 from by norm_num, List.head?_map,
      show (List.range 24).head? = some 0 from by decide, Option.map_some']
    have hs : ((1440 : ℚ) - 1440) + ((0 : ℕ) : ℚ) * ((60 : ℕ) : ℚ) = 0 := by push_cast; ring
    rw [Function.comp_apply, hs, window_point,
      show window_statuses [("passing", some 0)] 0 60 = ["passing"] from by
        norm_num [window_statuses, List.filterMap_cons]]
    simp [List.countP_cons, List.countP_nil]
    norm_num [round1, round_half_even, Int.fract]
  have hmem := List.mem_of_mem_head? hhead
  exact ⟨hmem, (c6_window_sum_bounds 1440 60 [("passing", some 0)] ⟨0, 100, 0, 0⟩ hmem).1⟩

/-- Claim C10: an empty raw history makes `aggregate_health_data` return the
empty sequence, not a full span of zero-percentage windows. -/
theorem c10_empty_history_empty_output (end_time : ℚ) (g : ℕ) :
    aggregate_health_data end_time [] g = [] := by
  simp [aggregate_health_data]

end ConsulMonitor
